import Mathlib

/-!
Verification of the `lexicon` vocabulary-lookup front end.

The response parser (`parsedContent` in `src/App.tsx`), the submit /
resolve controller logic (`getWordExplanation` in `src/App.tsx`) and the
service wrapper (`getGeminiExplanation` in `src/services/geminiService.ts`)
are embedded shallowly.  Strings are modelled as `List Char`; JavaScript
string primitives (`split`, `includes`, `indexOf`/`substring`, `trim`,
`replace` with a string pattern = first occurrence, `replace` with a
global regex = all occurrences) are given explicit executable models.
-/

namespace Lexicon

/-- JS `pat.isPrefixOf l`-style check used to implement `includes`/`indexOf`. -/
def isPre : List Char → List Char → Bool
  | [], _ => true
  | _ :: _, [] => false
  | p :: ps, c :: cs => p == c && isPre ps cs

/-- JS `l.includes(pat)`: does `pat` occur as a contiguous substring of `l`? -/
def containsL (l pat : List Char) : Bool :=
  match l with
  | [] => pat.isEmpty
  | _ :: cs => isPre pat l || containsL cs pat

/-- JS `l.indexOf(pat)` followed by `substring(0, i)` / `substring(i + pat.length)`:
split `l` at the first occurrence of `pat`, or `none` when `pat` does not occur. -/
def splitFirst (pat : List Char) : List Char → Option (List Char × List Char)
  | [] => if pat.isEmpty then some ([], []) else none
  | c :: cs =>
    if isPre pat (c :: cs) then some ([], (c :: cs).drop pat.length)
    else
      match splitFirst pat cs with
      | some (a, b) => some (c :: a, b)
      | none => none

/-- JS `l.replace(pat, '')` with a *string* pattern: remove the first occurrence only. -/
def removeFirst (pat l : List Char) : List Char :=
  match splitFirst pat l with
  | some (a, b) => a ++ b
  | none => l

/-- JS `l.replace(/\*\*/g, '')`: remove every (non-overlapping, left-to-right)
occurrence of `**`. -/
def stripStars : List Char → List Char
  | '*' :: '*' :: cs => stripStars cs
  | c :: cs => c :: stripStars cs
  | [] => []

/-- JS `l.replace(/\[|\]/g, '')`: delete every `[` and `]` character. -/
def stripBrackets (l : List Char) : List Char :=
  l.filter (fun c => !(c == '[' || c == ']'))

/-- JS `l.trim()` (restricted to ASCII whitespace): drop whitespace from both ends. -/
def wtrim (l : List Char) : List Char :=
  ((l.dropWhile Char.isWhitespace).reverse.dropWhile Char.isWhitespace).reverse

/-- JS `l.split(sep)` for a one-character separator: no collapsing, `"" ↦ [""]`. -/
def splitOnCh (sep : Char) : List Char → List (List Char)
  | [] => [[]]
  | c :: cs =>
    if c == sep then [] :: splitOnCh sep cs
    else
      match splitOnCh sep cs with
      | [] => [[c]]
      | h :: t => (c :: h) :: t

/-- JS `/^\d\./.test(line)`: first character a decimal digit, second character `.`. -/
def digitDot : List Char → Bool
  | a :: b :: _ => a.isDigit && b == '.'
  | _ => false

/-- The `PRONUNCIATION:` marker. -/
def PRON : List Char := "PRONUNCIATION:".toList

/-- The `SYNONYMS:` marker. -/
def SYN : List Char := "SYNONYMS:".toList

/-- The `ANTONYMS:` marker. -/
def ANT : List Char := "ANTONYMS:".toList

/-- The `Перевод:` (translation) marker. -/
def TRANSL : List Char := "Перевод:".toList

/-- The `ИДИОМЫ:` (idioms) marker. -/
def IDIOM : List Char := "ИДИОМЫ:".toList

/-- The `" - "` headword/definition separator. -/
def SEP : List Char := " - ".toList

/-- Accumulator of the single line scan in `parsedContent`
(`pronunciationLine`, `synonymsLine`, …, `examples` in `src/App.tsx`). -/
structure ScanAcc where
  pron : List Char
  syn : List Char
  ant : List Char
  transl : List Char
  idiom : List Char
  examples : List (List Char)
deriving DecidableEq, Repr

/-- Initial accumulator: every marker line empty, no examples. -/
def initAcc : ScanAcc := ⟨[], [], [], [], [], []⟩

/-- One step of the `lines.forEach` classification chain in `src/App.tsx`
(lines 128–135): `if … includes('PRONUNCIATION:') … else if … else if /^\d\./ …`. -/
def classify (st : ScanAcc) (line : List Char) : ScanAcc :=
  if containsL line PRON then { st with pron := line }
  else if containsL line SYN then { st with syn := line }
  else if containsL line ANT then { st with ant := line }
  else if containsL line TRANSL then { st with transl := line }
  else if containsL line IDIOM then { st with idiom := line }
  else if digitDot line then { st with examples := st.examples ++ [line] }
  else st

/-- The full `lines.forEach` scan. -/
def scan (lines : List (List Char)) : ScanAcc := lines.foldl classify initAcc

/-- `result.split('\n').filter(line => line.trim())`: the non-blank lines, untrimmed. -/
def linesOf (result : List Char) : List (List Char) :=
  (splitOnCh '\n' result).filter (fun l => !(wtrim l).isEmpty)

/-- The record returned by `parsedContent` in `src/App.tsx` (source field names kept). -/
structure ParsedExplanation where
  wordPart : List Char
  explanation : List Char
  pronunciation : List Char
  synonyms : List (List Char)
  antonyms : List (List Char)
  translation : List Char
  idiom : List Char
  examples : List (List Char)
deriving DecidableEq, Repr

/-- `src/App.tsx` lines 137–150: remove `**` from the first line, split it on the
first `" - "` into trimmed headword and definition, falling back to the query
term (untrimmed-line body as definition) when no separator occurs. -/
def headwordOf (lines : List (List Char)) (word : List Char) : List Char × List Char :=
  match splitFirst SEP (stripStars (lines.headD [])) with
  | some (a, b) => (wtrim a, wtrim b)
  | none => (word, stripStars (lines.headD []))

/-- The pronunciation post-processing of `src/App.tsx` lines 152 and 161, over a
single marker line: marker prefix removed (first occurrence), trimmed, every
bracket character deleted, trimmed again, then re-wrapped in brackets only when
non-empty. -/
def pronunciationOfLine (line : List Char) : List Char :=
  let core := wtrim (stripBrackets (wtrim (removeFirst PRON line)))
  if core.isEmpty then [] else '[' :: core ++ [']']

/-- `src/App.tsx` lines 153–154: marker removed, `**` removed, comma-split,
entries trimmed, empty entries dropped. -/
def commaField (marker line : List Char) : List (List Char) :=
  ((splitOnCh ',' (stripStars (removeFirst marker line))).map wtrim).filter
    (fun s => !s.isEmpty)

/-- `src/App.tsx` lines 155–156: marker removed, `**` removed, trimmed. -/
def textField (marker line : List Char) : List Char :=
  wtrim (stripStars (removeFirst marker line))

/-- Body of `parsedContent` after the blank-line filter: classify every line,
split the first line on `" - "` (after `**` removal) with fallback to the
query, and post-process each marker line exactly as `src/App.tsx` lines 137–167. -/
def parseLines (lines : List (List Char)) (word : List Char) : ParsedExplanation :=
  { wordPart := (headwordOf lines word).1
    explanation := (headwordOf lines word).2
    pronunciation := pronunciationOfLine (scan lines).pron
    synonyms := commaField SYN (scan lines).syn
    antonyms := commaField ANT (scan lines).ant
    translation := textField TRANSL (scan lines).transl
    idiom := textField IDIOM (scan lines).idiom
    examples := (scan lines).examples }

/-- `parsedContent` from `src/App.tsx` lines 115–168: `null` (here `none`) for the
empty raw string, otherwise the parsed record. -/
def parsedContent (result word : List Char) : Option ParsedExplanation :=
  if result.isEmpty then none else some (parseLines (linesOf result) word)

/-- The React state owned by `EnglishLearningTool` in `src/App.tsx`
(`word`, `result`, `isLoading`, `fade`, `error`, `isTyping`, `hasSearched`). -/
structure AppState where
  word : List Char
  result : List Char
  isLoading : Bool
  fade : Bool
  error : Bool
  isTyping : Bool
  hasSearched : Bool
deriving DecidableEq, Repr

/-- The synchronous prefix of `getWordExplanation` in `src/App.tsx` (lines 71–80),
up to the `await`: the guard `if (!word.trim() || isLoading) return;` and, when it
passes, the state updates fired before the fetch.  The second component records
whether a fetch was started. -/
def getWordExplanation (s : AppState) : AppState × Bool :=
  if (wtrim s.word).isEmpty || s.isLoading then (s, false)
  else
    ({ s with
        hasSearched := true
        isLoading := true
        fade := true
        error := false
        result := [] }, true)

/-- Continuation of `getWordExplanation` when the awaited fetch resolves with
`text` (the `try` tail plus the `finally` block). -/
def onFetchSuccess (s : AppState) (text : List Char) : AppState :=
  { s with result := text, isTyping := true, isLoading := false, fade := false }

/-- Continuation of `getWordExplanation` when the awaited fetch rejects
(the `catch` branch plus the `finally` block). -/
def onFetchFailure (s : AppState) : AppState :=
  { s with error := true, isLoading := false, fade := false }

/-- Errors of the fetch path (`EmptyResponse` and `ServiceError` in the spec). -/
inductive FetchError where
  | emptyResponse
  | serviceError
deriving DecidableEq, Repr

/-- `getGeminiExplanation` from `src/services/geminiService.ts`, with the remote
call abstracted: `svc` is the outcome of `ai.models.generateContent` — either a
transport/service failure, or a response whose `.text` is absent (`none`) or a
string.  The code throws when `!text` (absent or empty) and rethrows any
service error; both reach the caller as a rejection. -/
def getGeminiExplanation (svc : Except Unit (Option (List Char))) :
    Except FetchError (List Char) :=
  match svc with
  | .error _ => .error .serviceError
  | .ok none => .error .emptyResponse
  | .ok (some t) => if t.isEmpty then .error .emptyResponse else .ok t

/-- A line the scan routes to `pronunciationLine`: it contains `PRONUNCIATION:`. -/
def pPron (l : List Char) : Bool := containsL l PRON

/-- A line the scan routes to `synonymsLine` (second branch of the `else if` chain). -/
def pSyn (l : List Char) : Bool := !containsL l PRON && containsL l SYN

/-- A line the scan routes to `antonymsLine`. -/
def pAnt (l : List Char) : Bool :=
  !containsL l PRON && !containsL l SYN && containsL l ANT

/-- A line the scan routes to `translationLine`. -/
def pTransl (l : List Char) : Bool :=
  !containsL l PRON && !containsL l SYN && !containsL l ANT && containsL l TRANSL

/-- A line the scan routes to `idiomsLine`. -/
def pIdiom (l : List Char) : Bool :=
  !containsL l PRON && !containsL l SYN && !containsL l ANT && !containsL l TRANSL &&
    containsL l IDIOM

/-- A line containing at least one of the five field markers. -/
def markerAny (l : List Char) : Bool :=
  containsL l PRON || containsL l SYN || containsL l ANT || containsL l TRANSL ||
    containsL l IDIOM

/-- A line the scan pushes onto `examples`: no marker, and a leading `<digit>.`. -/
def pEx (l : List Char) : Bool := !markerAny l && digitDot l

/-- Last element of a list, or the default `d` when the list is empty
(the value left in a mutable variable reassigned on every match). -/
def lastD (d : α) (l : List α) : α := l.foldl (fun _ x => x) d

theorem classify_pron (st : ScanAcc) (l : List Char) :
    (classify st l).pron = if pPron l then l else st.pron := by
  by_cases h1 : containsL l PRON <;> by_cases h2 : containsL l SYN <;>
    by_cases h3 : containsL l ANT <;> by_cases h4 : containsL l TRANSL <;>
      by_cases h5 : containsL l IDIOM <;> by_cases h6 : digitDot l <;>
        simp [classify, pPron, h1, h2, h3, h4, h5, h6]

theorem classify_syn (st : ScanAcc) (l : List Char) :
    (classify st l).syn = if pSyn l then l else st.syn := by
  by_cases h1 : containsL l PRON <;> by_cases h2 : containsL l SYN <;>
    by_cases h3 : containsL l ANT <;> by_cases h4 : containsL l TRANSL <;>
      by_cases h5 : containsL l IDIOM <;> by_cases h6 : digitDot l <;>
        simp [classify, pSyn, h1, h2, h3, h4, h5, h6]

theorem classify_ant (st : ScanAcc) (l : List Char) :
    (classify st l).ant = if pAnt l then l else st.ant := by
  by_cases h1 : containsL l PRON <;> by_cases h2 : containsL l SYN <;>
    by_cases h3 : containsL l ANT <;> by_cases h4 : containsL l TRANSL <;>
      by_cases h5 : containsL l IDIOM <;> by_cases h6 : digitDot l <;>
        simp [classify, pAnt, h1, h2, h3, h4, h5, h6]

theorem classify_transl (st : ScanAcc) (l : List Char) :
    (classify st l).transl = if pTransl l then l else st.transl := by
  by_cases h1 : containsL l PRON <;> by_cases h2 : containsL l SYN <;>
    by_cases h3 : containsL l ANT <;> by_cases h4 : containsL l TRANSL <;>
      by_cases h5 : containsL l IDIOM <;> by_cases h6 : digitDot l <;>
        simp [classify, pTransl, h1, h2, h3, h4, h5, h6]

theorem classify_idiom (st : ScanAcc) (l : List Char) :
    (classify st l).idiom = if pIdiom l then l else st.idiom := by
  by_cases h1 : containsL l PRON <;> by_cases h2 : containsL l SYN <;>
    by_cases h3 : containsL l ANT <;> by_cases h4 : containsL l TRANSL <;>
      by_cases h5 : containsL l IDIOM <;> by_cases h6 : digitDot l <;>
        simp [classify, pIdiom, h1, h2, h3, h4, h5, h6]

theorem classify_examples (st : ScanAcc) (l : List Char) :
    (classify st l).examples =
      if pEx l then st.examples ++ [l] else st.examples := by
  by_cases h1 : containsL l PRON <;> by_cases h2 : containsL l SYN <;>
    by_cases h3 : containsL l ANT <;> by_cases h4 : containsL l TRANSL <;>
      by_cases h5 : containsL l IDIOM <;> by_cases h6 : digitDot l <;>
        simp [classify, pEx, markerAny, h1, h2, h3, h4, h5, h6]

theorem classify_id (st : ScanAcc) (l : List Char) (hm : markerAny l = false)
    (hd : digitDot l = false) : classify st l = st := by
  simp only [markerAny, Bool.or_eq_false_iff] at hm
  simp [classify, hm.1.1.1.1, hm.1.1.1.2, hm.1.1.2, hm.1.2, hm.2, hd]

theorem lastD_cons (d x : α) (xs : List α) : lastD d (x :: xs) = lastD x xs := rfl

theorem foldl_classify_pron (lines : List (List Char)) (st : ScanAcc) :
    (lines.foldl classify st).pron = lastD st.pron (lines.filter pPron) := by
  induction lines generalizing st with
  | nil => rfl
  | cons l ls ih =>
    rw [List.foldl_cons, List.filter_cons, ih, classify_pron]
    by_cases h : pPron l <;> simp [h, lastD_cons]

theorem foldl_classify_syn (lines : List (List Char)) (st : ScanAcc) :
    (lines.foldl classify st).syn = lastD st.syn (lines.filter pSyn) := by
  induction lines generalizing st with
  | nil => rfl
  | cons l ls ih =>
    rw [List.foldl_cons, List.filter_cons, ih, classify_syn]
    by_cases h : pSyn l <;> simp [h, lastD_cons]

theorem foldl_classify_ant (lines : List (List Char)) (st : ScanAcc) :
    (lines.foldl classify st).ant = lastD st.ant (lines.filter pAnt) := by
  induction lines generalizing st with
  | nil => rfl
  | cons l ls ih =>
    rw [List.foldl_cons, List.filter_cons, ih, classify_ant]
    by_cases h : pAnt l <;> simp [h, lastD_cons]

theorem foldl_classify_transl (lines : List (List Char)) (st : ScanAcc) :
    (lines.foldl classify st).transl = lastD st.transl (lines.filter pTransl) := by
  induction lines generalizing st with
  | nil => rfl
  | cons l ls ih =>
    rw [List.foldl_cons, List.filter_cons, ih, classify_transl]
    by_cases h : pTransl l <;> simp [h, lastD_cons]

theorem foldl_classify_idiom (lines : List (List Char)) (st : ScanAcc) :
    (lines.foldl classify st).idiom = lastD st.idiom (lines.filter pIdiom) := by
  induction lines generalizing st with
  | nil => rfl
  | cons l ls ih =>
    rw [List.foldl_cons, List.filter_cons, ih, classify_idiom]
    by_cases h : pIdiom l <;> simp [h, lastD_cons]

theorem foldl_classify_examples (lines : List (List Char)) (st : ScanAcc) :
    (lines.foldl classify st).examples = st.examples ++ lines.filter pEx := by
  induction lines generalizing st with
  | nil => simp [List.foldl_nil]
  | cons l ls ih =>
    rw [List.foldl_cons, List.filter_cons, ih, classify_examples]
    by_cases h : pEx l <;> simp [h]

theorem scan_pron (lines : List (List Char)) :
    (scan lines).pron = lastD [] (lines.filter pPron) :=
  foldl_classify_pron lines initAcc

theorem scan_syn (lines : List (List Char)) :
    (scan lines).syn = lastD [] (lines.filter pSyn) :=
  foldl_classify_syn lines initAcc

theorem scan_ant (lines : List (List Char)) :
    (scan lines).ant = lastD [] (lines.filter pAnt) :=
  foldl_classify_ant lines initAcc

theorem scan_transl (lines : List (List Char)) :
    (scan lines).transl = lastD [] (lines.filter pTransl) :=
  foldl_classify_transl lines initAcc

theorem scan_idiom (lines : List (List Char)) :
    (scan lines).idiom = lastD [] (lines.filter pIdiom) :=
  foldl_classify_idiom lines initAcc

theorem scan_examples (lines : List (List Char)) :
    (scan lines).examples = lines.filter pEx :=
  foldl_classify_examples lines initAcc

theorem splitFirst_none_iff (pat l : List Char) :
    splitFirst pat l = none ↔ containsL l pat = false := by
  induction l with
  | nil =>
    by_cases h : pat.isEmpty <;> simp [splitFirst, containsL, h]
  | cons c cs ih =>
    by_cases h : isPre pat (c :: cs)
    · simp [splitFirst, containsL, h]
    · rw [splitFirst, if_neg h]
      cases hs : splitFirst pat cs with
      | none => simp [containsL, h, ih.mp hs]
      | some ab =>
        have : containsL cs pat = true := by
          rcases Bool.eq_false_or_eq_true (containsL cs pat) with ht | hf
          · exact ht
          · rw [← ih] at hf; rw [hs] at hf; cases hf
        simp [containsL, h, this]

theorem perm_short_eq {α : Type} {l1 l2 : List α} (h : l1.Perm l2)
    (hl : l1.length ≤ 1) : l1 = l2 := by
  cases l1 with
  | nil => exact (List.Perm.eq_nil h.symm).symm
  | cons a t =>
    cases t with
    | nil => exact List.singleton_perm.mp h
    | cons b u => simp at hl

theorem length_filter_le_of_imp {α : Type} (p q : α → Bool)
    (h : ∀ a, p a = true → q a = true) (l : List α) :
    (l.filter p).length ≤ (l.filter q).length := by
  induction l with
  | nil => simp
  | cons a t ih =>
    by_cases hp : p a
    · rw [List.filter_cons_of_pos hp, List.filter_cons_of_pos (h a hp)]
      simpa using ih
    · rw [List.filter_cons_of_neg hp]
      by_cases hq : q a
      · rw [List.filter_cons_of_pos hq]
        exact Nat.le_succ_of_le ih
      · rw [List.filter_cons_of_neg hq]
        exact ih

theorem filter_eq_of_perm_short {l1 l2 : List (List Char)} (p m : List Char → Bool)
    (hpm : ∀ a, p a = true → m a = true) (h : l1.Perm l2)
    (hm : (l1.filter m).length ≤ 1) : l1.filter p = l2.filter p :=
  perm_short_eq (h.filter p)
    (le_trans (length_filter_le_of_imp p m hpm l1) hm)

theorem filter_false_of_all {α : Type} (p : α → Bool) (l : List α)
    (h : ∀ a ∈ l, p a = false) : l.filter p = [] :=
  List.filter_eq_nil_iff.mpr (fun a ha => by simp [h a ha])

theorem parseLines_eq_of (l1 l2 : List (List Char)) (q : List Char)
    (hh : l1.headD [] = l2.headD []) (hs : scan l1 = scan l2) :
    parseLines l1 q = parseLines l2 q := by
  simp only [parseLines, headwordOf, hh, hs]

theorem parsedContent_eq (raw q : List Char) (h : raw.isEmpty = false) :
    parsedContent raw q = some (parseLines (linesOf raw) q) := by
  simp [parsedContent, h]

theorem parseLines_wordPart (lines : List (List Char)) (q : List Char) :
    (parseLines lines q).wordPart = (headwordOf lines q).1 := by
  simp only [parseLines]

theorem parseLines_explanation (lines : List (List Char)) (q : List Char) :
    (parseLines lines q).explanation = (headwordOf lines q).2 := by
  simp only [parseLines]

theorem parseLines_pronunciation (lines : List (List Char)) (q : List Char) :
    (parseLines lines q).pronunciation = pronunciationOfLine (scan lines).pron := by
  simp only [parseLines]

theorem parseLines_synonyms (lines : List (List Char)) (q : List Char) :
    (parseLines lines q).synonyms = commaField SYN (scan lines).syn := by
  simp only [parseLines]

theorem parseLines_antonyms (lines : List (List Char)) (q : List Char) :
    (parseLines lines q).antonyms = commaField ANT (scan lines).ant := by
  simp only [parseLines]

theorem parseLines_translation (lines : List (List Char)) (q : List Char) :
    (parseLines lines q).translation = textField TRANSL (scan lines).transl := by
  simp only [parseLines]

theorem parseLines_idiom (lines : List (List Char)) (q : List Char) :
    (parseLines lines q).idiom = textField IDIOM (scan lines).idiom := by
  simp only [parseLines]

theorem parseLines_examples (lines : List (List Char)) (q : List Char) :
    (parseLines lines q).examples = (scan lines).examples := by
  simp only [parseLines]

/-- C1 counterexample: on the empty raw string the parser returns `none` (the
source's `null` at `if (!result) return null;`), not a `ParsedExplanation`
with default fields as the claim states for "every input string". -/
theorem c1_empty_raw_counterexample :
    parsedContent ("".toList) ("ephemeral".toList) = none := by decide

/-- C1 (amended): for every NON-empty input string and every fallback query the
parser returns a `ParsedExplanation` value with every field present, and a
field whose marker (or, for examples, whose leading-digit pattern) occurs on no
line gets its empty-string / empty-sequence default. -/
theorem c1_parser_total_with_defaults (raw q : List Char)
    (h : raw.isEmpty = false) :
    ∃ p, parsedContent raw q = some p
      ∧ ((∀ l ∈ linesOf raw, containsL l PRON = false) → p.pronunciation = [])
      ∧ ((∀ l ∈ linesOf raw, containsL l SYN = false) → p.synonyms = [])
      ∧ ((∀ l ∈ linesOf raw, containsL l ANT = false) → p.antonyms = [])
      ∧ ((∀ l ∈ linesOf raw, containsL l TRANSL = false) → p.translation = [])
      ∧ ((∀ l ∈ linesOf raw, containsL l IDIOM = false) → p.idiom = [])
      ∧ ((∀ l ∈ linesOf raw, digitDot l = false) → p.examples = []) := by
  refine ⟨parseLines (linesOf raw) q, parsedContent_eq raw q h,
    ?_, ?_, ?_, ?_, ?_, ?_⟩
  · intro hm
    have hf : (linesOf raw).filter pPron = [] :=
      filter_false_of_all _ _ (fun a ha => by simp [pPron, hm a ha])
    rw [parseLines_pronunciation, scan_pron, hf]
    decide
  · intro hm
    have hf : (linesOf raw).filter pSyn = [] :=
      filter_false_of_all _ _ (fun a ha => by simp [pSyn, hm a ha])
    rw [parseLines_synonyms, scan_syn, hf]
    decide
  · intro hm
    have hf : (linesOf raw).filter pAnt = [] :=
      filter_false_of_all _ _ (fun a ha => by simp [pAnt, hm a ha])
    rw [parseLines_antonyms, scan_ant, hf]
    decide
  · intro hm
    have hf : (linesOf raw).filter pTransl = [] :=
      filter_false_of_all _ _ (fun a ha => by simp [pTransl, hm a ha])
    rw [parseLines_translation, scan_transl, hf]
    decide
  · intro hm
    have hf : (linesOf raw).filter pIdiom = [] :=
      filter_false_of_all _ _ (fun a ha => by simp [pIdiom, hm a ha])
    rw [parseLines_idiom, scan_idiom, hf]
    decide
  · intro hm
    have hf : (linesOf raw).filter pEx = [] :=
      filter_false_of_all _ _ (fun a ha => by simp [pEx, hm a ha])
    rw [parseLines_examples, scan_examples, hf]

/-- C1 witness: the amended totality theorem instantiated at the marker-free
raw text `"hello"`. -/
theorem c1_parser_total_witness :
    ∃ p, parsedContent ("hello".toList) ("q".toList) = some p
      ∧ ((∀ l ∈ linesOf ("hello".toList), containsL l PRON = false) →
          p.pronunciation = [])
      ∧ ((∀ l ∈ linesOf ("hello".toList), containsL l SYN = false) →
          p.synonyms = [])
      ∧ ((∀ l ∈ linesOf ("hello".toList), containsL l ANT = false) →
          p.antonyms = [])
      ∧ ((∀ l ∈ linesOf ("hello".toList), containsL l TRANSL = false) →
          p.translation = [])
      ∧ ((∀ l ∈ linesOf ("hello".toList), containsL l IDIOM = false) →
          p.idiom = [])
      ∧ ((∀ l ∈ linesOf ("hello".toList), digitDot l = false) →
          p.examples = []) :=
  c1_parser_total_with_defaults ("hello".toList) ("q".toList) (by decide)

/-- C2: the spec's end-to-end example: query `"ephemeral"` with the nine-line
raw text parses to exactly the stated headword, definition, pronunciation,
examples (in order), synonyms, antonyms, translation and idioms. -/
theorem c2_end_to_end_ephemeral :
    parsedContent ("ephemeral - lasting for a very short time.\nPRONUNCIATION: [ih-FEM-er-uhl]\n1. The beauty of cherry blossoms is ephemeral.\n2. Fame in showbiz can be ephemeral.\n3. Their joy was ephemeral, lasting only a moment.\nSYNONYMS: fleeting, transient, momentary\nANTONYMS: permanent, lasting, enduring\nПеревод: эфемерный\nИДИОМЫ: none").toList
        ("ephemeral".toList)
      = some
        { wordPart := "ephemeral".toList
          explanation := "lasting for a very short time.".toList
          pronunciation := "[ih-FEM-er-uhl]".toList
          synonyms := ["fleeting".toList, "transient".toList, "momentary".toList]
          antonyms := ["permanent".toList, "lasting".toList, "enduring".toList]
          translation := "эфемерный".toList
          idiom := "none".toList
          examples := ["1. The beauty of cherry blossoms is ephemeral.".toList,
            "2. Fame in showbiz can be ephemeral.".toList,
            "3. Their joy was ephemeral, lasting only a moment.".toList] } := by
  decide

/-- C3 counterexample: the first (and only) line of `"a **- b"` does not contain
the `" - "` separator, yet the parser removes `**` first, finds a separator in
the cleaned line `"a - b"`, and returns headword `"a"` instead of the query. -/
theorem c3_headword_counterexample :
    containsL ((linesOf ("a **- b".toList)).headD []) SEP = false
    ∧ (parsedContent ("a **- b".toList) ("q".toList)).map (fun p => p.wordPart)
        = some ("a".toList)
    ∧ "a".toList ≠ "q".toList := by decide

/-- C3 (amended): the headword fallback is decided on the first non-blank line
AFTER `**` removal: when that cleaned line contains no `" - "`, the headword is
the query term verbatim; when a first `" - "` occurrence splits the cleaned
line as `a ++ " - " ++ b`, the headword is `a` trimmed and the definition is
`b` trimmed. -/
theorem c3_headword_fallback (raw q : List Char) (h : raw.isEmpty = false) :
    ∃ p, parsedContent raw q = some p
      ∧ (containsL (stripStars ((linesOf raw).headD [])) SEP = false →
          p.wordPart = q)
      ∧ (∀ a b, splitFirst SEP (stripStars ((linesOf raw).headD [])) = some (a, b) →
          p.wordPart = wtrim a ∧ p.explanation = wtrim b) := by
  refine ⟨parseLines (linesOf raw) q, parsedContent_eq raw q h, ?_, ?_⟩
  · intro hc
    have hn : splitFirst SEP (stripStars ((linesOf raw).headD [])) = none :=
      (splitFirst_none_iff _ _).mpr hc
    rw [parseLines_wordPart]
    unfold headwordOf
    rw [hn]
  · intro a b hs
    constructor
    · rw [parseLines_wordPart]
      unfold headwordOf
      rw [hs]
    · rw [parseLines_explanation]
      unfold headwordOf
      rw [hs]

/-- C3 witness: the amended headword theorem instantiated at raw
`"serendipity - luck"` with query `"q"`. -/
theorem c3_headword_witness :
    ∃ p, parsedContent ("serendipity - luck".toList) ("q".toList) = some p
      ∧ (containsL (stripStars ((linesOf ("serendipity - luck".toList)).headD []))
            SEP = false → p.wordPart = "q".toList)
      ∧ (∀ a b, splitFirst SEP
            (stripStars ((linesOf ("serendipity - luck".toList)).headD []))
            = some (a, b) →
          p.wordPart = wtrim a ∧ p.explanation = wtrim b) :=
  c3_headword_fallback ("serendipity - luck".toList) ("q".toList) (by decide)

/-- C4 counterexample: two raw texts whose non-blank lines are permutations of
one another, differing only in the order of two marker-bearing lines (both
containing `PRONUNCIATION:`), parse to different pronunciation fields — the
scan's last-match-wins assignment is position dependent. -/
theorem c4_order_counterexample :
    linesOf ("w\nPRONUNCIATION: a\nPRONUNCIATION: b".toList)
        = ["w".toList, "PRONUNCIATION: a".toList, "PRONUNCIATION: b".toList]
    ∧ linesOf ("w\nPRONUNCIATION: b\nPRONUNCIATION: a".toList)
        = ["w".toList, "PRONUNCIATION: b".toList, "PRONUNCIATION: a".toList]
    ∧ (parsedContent ("w\nPRONUNCIATION: a\nPRONUNCIATION: b".toList)
        ("q".toList)).map (fun p => p.pronunciation) = some ("[b]".toList)
    ∧ (parsedContent ("w\nPRONUNCIATION: b\nPRONUNCIATION: a".toList)
        ("q".toList)).map (fun p => p.pronunciation) = some ("[a]".toList)
    ∧ "[b]".toList ≠ "[a]".toList := by decide

/-- C4 (amended): when each of the five marker substrings occurs in at most one
non-blank line, any permutation of the marker-bearing lines (the lines without
markers kept equal, in order) assigns the same pronunciation, synonyms,
antonyms, translation and idioms fields, and the examples sequence equals the
marker-free leading-digit lines in input order. -/
theorem c4_marker_order_independence (raw1 raw2 q : List Char)
    (h1 : raw1.isEmpty = false) (h2 : raw2.isEmpty = false)
    (hperm : (linesOf raw1).Perm (linesOf raw2))
    (hfix : (linesOf raw1).filter (fun l => !markerAny l)
        = (linesOf raw2).filter (fun l => !markerAny l))
    (u1 : ((linesOf raw1).filter (fun l => containsL l PRON)).length ≤ 1)
    (u2 : ((linesOf raw1).filter (fun l => containsL l SYN)).length ≤ 1)
    (u3 : ((linesOf raw1).filter (fun l => containsL l ANT)).length ≤ 1)
    (u4 : ((linesOf raw1).filter (fun l => containsL l TRANSL)).length ≤ 1)
    (u5 : ((linesOf raw1).filter (fun l => containsL l IDIOM)).length ≤ 1) :
    ∃ p1 p2, parsedContent raw1 q = some p1 ∧ parsedContent raw2 q = some p2
      ∧ p1.pronunciation = p2.pronunciation ∧ p1.synonyms = p2.synonyms
      ∧ p1.antonyms = p2.antonyms ∧ p1.translation = p2.translation
      ∧ p1.idiom = p2.idiom ∧ p1.examples = p2.examples
      ∧ p1.examples = (linesOf raw1).filter pEx := by
  have fp : (linesOf raw1).filter pPron = (linesOf raw2).filter pPron :=
    filter_eq_of_perm_short pPron (fun l => containsL l PRON)
      (fun a ha => ha) hperm u1
  have fs : (linesOf raw1).filter pSyn = (linesOf raw2).filter pSyn :=
    filter_eq_of_perm_short pSyn (fun l => containsL l SYN)
      (fun a ha => by simp [pSyn] at ha; exact ha.2) hperm u2
  have fa : (linesOf raw1).filter pAnt = (linesOf raw2).filter pAnt :=
    filter_eq_of_perm_short pAnt (fun l => containsL l ANT)
      (fun a ha => by simp [pAnt] at ha; exact ha.2) hperm u3
  have ft : (linesOf raw1).filter pTransl = (linesOf raw2).filter pTransl :=
    filter_eq_of_perm_short pTransl (fun l => containsL l TRANSL)
      (fun a ha => by simp [pTransl] at ha; exact ha.2) hperm u4
  have fi : (linesOf raw1).filter pIdiom = (linesOf raw2).filter pIdiom :=
    filter_eq_of_perm_short pIdiom (fun l => containsL l IDIOM)
      (fun a ha => by simp [pIdiom] at ha; exact ha.2) hperm u5
  have key : ∀ l : List (List Char),
      l.filter pEx = List.filter digitDot (l.filter (fun x => !markerAny x)) := by
    intro l
    rw [List.filter_filter]
    exact (List.filter_congr (fun x _ => by simp [pEx, Bool.and_comm])).symm
  have fe : (linesOf raw1).filter pEx = (linesOf raw2).filter pEx := by
    rw [key, key, hfix]
  refine ⟨parseLines (linesOf raw1) q, parseLines (linesOf raw2) q,
    parsedContent_eq raw1 q h1, parsedContent_eq raw2 q h2,
    ?_, ?_, ?_, ?_, ?_, ?_, ?_⟩
  · simp only [parseLines_pronunciation]
    rw [scan_pron, scan_pron, fp]
  · simp only [parseLines_synonyms]
    rw [scan_syn, scan_syn, fs]
  · simp only [parseLines_antonyms]
    rw [scan_ant, scan_ant, fa]
  · simp only [parseLines_translation]
    rw [scan_transl, scan_transl, ft]
  · simp only [parseLines_idiom]
    rw [scan_idiom, scan_idiom, fi]
  · simp only [parseLines_examples]
    rw [scan_examples, scan_examples, fe]
  · simp only [parseLines_examples]
    exact scan_examples _

/-- C4 witness: the amended order-independence theorem instantiated at a pair
of raw texts that swap a `SYNONYMS:` line and a `PRONUNCIATION:` line. -/
theorem c4_marker_order_witness :
    ∃ p1 p2,
      parsedContent ("w\nSYNONYMS: a, b\nPRONUNCIATION: [p]\n1. ex".toList)
          ("q".toList) = some p1
      ∧ parsedContent ("w\nPRONUNCIATION: [p]\nSYNONYMS: a, b\n1. ex".toList)
          ("q".toList) = some p2
      ∧ p1.pronunciation = p2.pronunciation ∧ p1.synonyms = p2.synonyms
      ∧ p1.antonyms = p2.antonyms ∧ p1.translation = p2.translation
      ∧ p1.idiom = p2.idiom ∧ p1.examples = p2.examples
      ∧ p1.examples
          = (linesOf ("w\nSYNONYMS: a, b\nPRONUNCIATION: [p]\n1. ex".toList)).filter
              pEx :=
  c4_marker_order_independence
    ("w\nSYNONYMS: a, b\nPRONUNCIATION: [p]\n1. ex".toList)
    ("w\nPRONUNCIATION: [p]\nSYNONYMS: a, b\n1. ex".toList)
    ("q".toList) (by decide) (by decide) (by decide) (by decide)
    (by decide) (by decide) (by decide) (by decide) (by decide)

/-- C5 counterexample: `"10. ten"` is a non-blank line with a leading
multi-digit integer plus period, yet the parser's `/^\d\./` test (exactly one
digit) rejects it, so the examples sequence is empty. -/
theorem c5_multidigit_counterexample :
    linesOf ("w\n10. ten".toList) = ["w".toList, "10. ten".toList]
    ∧ (parsedContent ("w\n10. ten".toList) ("q".toList)).map (fun p => p.examples)
        = some [] := by decide

/-- C5 (amended): the examples field is exactly the non-blank lines that
contain none of the five marker substrings and start with a SINGLE digit
followed immediately by a period, in input order; and deleting any ignored
line (no marker, no leading digit-period) other than the first non-blank line
leaves the parse unchanged. -/
theorem c5_example_classification (raw q : List Char) (h : raw.isEmpty = false) :
    ∃ p, parsedContent raw q = some p
      ∧ p.examples = (linesOf raw).filter pEx
      ∧ (∀ pre l suf, linesOf raw = pre ++ l :: suf → pre ≠ [] →
          markerAny l = false → digitDot l = false →
          parseLines (pre ++ suf) q = p) := by
  refine ⟨parseLines (linesOf raw) q, parsedContent_eq raw q h, ?_, ?_⟩
  · rw [parseLines_examples]
    exact scan_examples _
  · intro pre l suf heq hpre hm hd
    rw [heq]
    apply parseLines_eq_of
    · cases pre with
      | nil => exact absurd rfl hpre
      | cons a t => rfl
    · show (pre ++ suf).foldl classify initAcc
          = (pre ++ l :: suf).foldl classify initAcc
      rw [List.foldl_append, List.foldl_append, List.foldl_cons,
        classify_id _ _ hm hd]

/-- C5 witness: the amended classification theorem instantiated at a raw text
with one example line, one ignored line and one marker line. -/
theorem c5_example_witness :
    ∃ p, parsedContent ("w - d\nnote\n1. ex\nSYNONYMS: a".toList) ("q".toList)
        = some p
      ∧ p.examples = (linesOf ("w - d\nnote\n1. ex\nSYNONYMS: a".toList)).filter pEx
      ∧ (∀ pre l suf,
          linesOf ("w - d\nnote\n1. ex\nSYNONYMS: a".toList) = pre ++ l :: suf →
          pre ≠ [] → markerAny l = false → digitDot l = false →
          parseLines (pre ++ suf) ("q".toList) = p) :=
  c5_example_classification ("w - d\nnote\n1. ex\nSYNONYMS: a".toList)
    ("q".toList) (by decide)

/-- C6 counterexample: on the marker line `"PRONUNCIATION: a[b]"` the content
`"a[b]"` carries no surrounding brackets, yet the parser deletes the INNER
brackets too and renders `"[ab]"`, not the claim's `"[a[b]]"`. -/
theorem c6_bracket_counterexample :
    wtrim (removeFirst PRON ("PRONUNCIATION: a[b]".toList)) = "a[b]".toList
    ∧ (parsedContent ("w\nPRONUNCIATION: a[b]".toList) ("q".toList)).map
        (fun p => p.pronunciation) = some ("[ab]".toList)
    ∧ "[ab]".toList ≠ "[a[b]]".toList := by decide

/-- C6 (amended): the pronunciation field is the scanned pronunciation line
with the first marker occurrence removed, trimmed, ALL bracket characters
deleted (not only surrounding ones), trimmed, and re-wrapped in brackets only
when non-empty; it never equals `"[]"`, and an absent marker yields `""`. -/
theorem c6_pronunciation_brackets (raw q : List Char) (h : raw.isEmpty = false) :
    ∃ p, parsedContent raw q = some p
      ∧ p.pronunciation = pronunciationOfLine (lastD [] ((linesOf raw).filter pPron))
      ∧ p.pronunciation ≠ "[]".toList
      ∧ ((∀ l ∈ linesOf raw, containsL l PRON = false) → p.pronunciation = []) := by
  have hne : ∀ line, pronunciationOfLine line ≠ "[]".toList := by
    intro line heq
    rw [pronunciationOfLine] at heq
    by_cases hc : (wtrim (stripBrackets (wtrim (removeFirst PRON line)))).isEmpty
    · rw [if_pos hc] at heq
      exact absurd heq (by decide)
    · rw [if_neg hc] at heq
      have hlen := congrArg List.length heq
      have h2 : ("[]".toList).length = 2 := rfl
      rw [h2] at hlen
      simp [List.length_cons, List.length_append] at hlen
      rw [hlen] at hc
      simp at hc
  refine ⟨parseLines (linesOf raw) q, parsedContent_eq raw q h, ?_, ?_, ?_⟩
  · rw [parseLines_pronunciation, scan_pron]
  · rw [parseLines_pronunciation]
    exact hne _
  · intro hm
    have hf : (linesOf raw).filter pPron = [] :=
      filter_false_of_all _ _ (fun a ha => by simp [pPron, hm a ha])
    rw [parseLines_pronunciation, scan_pron, hf]
    decide

/-- C6 witness: the amended pronunciation theorem instantiated at a raw text
with a bracketed pronunciation. -/
theorem c6_pronunciation_witness :
    ∃ p, parsedContent ("w\nPRONUNCIATION: [x]".toList) ("q".toList) = some p
      ∧ p.pronunciation
          = pronunciationOfLine
              (lastD [] ((linesOf ("w\nPRONUNCIATION: [x]".toList)).filter pPron))
      ∧ p.pronunciation ≠ "[]".toList
      ∧ ((∀ l ∈ linesOf ("w\nPRONUNCIATION: [x]".toList),
            containsL l PRON = false) → p.pronunciation = []) :=
  c6_pronunciation_brackets ("w\nPRONUNCIATION: [x]".toList) ("q".toList)
    (by decide)

/-- C7: the submit guard is an idempotent no-op filter: while a fetch is
outstanding (`isLoading`) or the trimmed query is empty, `getWordExplanation`
changes no state and starts no fetch; and after an accepted submission the
state is loading, so an immediate second submission is a no-op that starts no
second fetch — at most one fetch is outstanding. -/
theorem c7_submit_idempotent_guard (s : AppState) :
    (((wtrim s.word).isEmpty || s.isLoading) = true →
        getWordExplanation s = (s, false))
    ∧ ((getWordExplanation s).2 = true →
        (getWordExplanation s).1.isLoading = true
        ∧ getWordExplanation (getWordExplanation s).1
            = ((getWordExplanation s).1, false)) := by
  constructor
  · intro hg
    rw [getWordExplanation, if_pos hg]
  · intro hf
    by_cases hg : ((wtrim s.word).isEmpty || s.isLoading) = true
    · rw [getWordExplanation, if_pos hg] at hf
      cases hf
    · rw [getWordExplanation, if_neg hg]
      refine ⟨rfl, ?_⟩
      rw [getWordExplanation]
      simp

/-- C7 witness: the guard applied to a state that is already loading, and the
double-submission property applied to an idle state with query `"w"`. -/
theorem c7_submit_guard_witness :
    getWordExplanation ⟨"w".toList, "r".toList, true, false, false, false, true⟩
      = (⟨"w".toList, "r".toList, true, false, false, false, true⟩, false)
    ∧ ((getWordExplanation
          ⟨"w".toList, [], false, false, false, false, false⟩).1.isLoading = true
        ∧ getWordExplanation
            (getWordExplanation
              ⟨"w".toList, [], false, false, false, false, false⟩).1
          = ((getWordExplanation
              ⟨"w".toList, [], false, false, false, false, false⟩).1, false)) :=
  ⟨(c7_submit_idempotent_guard
      ⟨"w".toList, "r".toList, true, false, false, false, true⟩).1 (by decide),
   (c7_submit_idempotent_guard
      ⟨"w".toList, [], false, false, false, false, false⟩).2 (by decide)⟩

/-- C8: every accepted submission clears the prior result and the error flag
before the fetch resolves (so no stored `ParsedExplanation` is visible during
the new fetch), and if the fetch then rejects, the controller ends with the
error flag set, not loading, and still no `ParsedExplanation` stored. -/
theorem c8_reset_and_failure_atomicity (s : AppState)
    (h : (getWordExplanation s).2 = true) :
    (getWordExplanation s).1.result = []
    ∧ (getWordExplanation s).1.error = false
    ∧ (∀ q, parsedContent (getWordExplanation s).1.result q = none)
    ∧ (onFetchFailure (getWordExplanation s).1).error = true
    ∧ (onFetchFailure (getWordExplanation s).1).isLoading = false
    ∧ (∀ q, parsedContent (onFetchFailure (getWordExplanation s).1).result q
        = none) := by
  by_cases hg : ((wtrim s.word).isEmpty || s.isLoading) = true
  · rw [getWordExplanation, if_pos hg] at h
    cases h
  · rw [getWordExplanation, if_neg hg]
    exact ⟨rfl, rfl, fun q => rfl, rfl, rfl, fun q => rfl⟩

/-- C8 witness: the reset/failure theorem applied to an idle state with a
stale result `"old"` and query `"w"`. -/
theorem c8_reset_witness :
    (getWordExplanation
        ⟨"w".toList, "old".toList, false, false, false, false, true⟩).1.result = []
    ∧ (getWordExplanation
        ⟨"w".toList, "old".toList, false, false, false, false, true⟩).1.error = false
    ∧ (∀ q, parsedContent
        (getWordExplanation
          ⟨"w".toList, "old".toList, false, false, false, false, true⟩).1.result q
        = none)
    ∧ (onFetchFailure (getWordExplanation
        ⟨"w".toList, "old".toList, false, false, false, false, true⟩).1).error = true
    ∧ (onFetchFailure (getWordExplanation
        ⟨"w".toList, "old".toList, false, false, false, false, true⟩).1).isLoading
        = false
    ∧ (∀ q, parsedContent
        (onFetchFailure (getWordExplanation
          ⟨"w".toList, "old".toList, false, false, false, false, true⟩).1).result q
        = none) :=
  c8_reset_and_failure_atomicity
    ⟨"w".toList, "old".toList, false, false, false, false, true⟩ (by decide)

/-- C9: the service wrapper fails with `emptyResponse` exactly when the remote
call succeeds but carries no text (absent or empty `response.text`), and when
non-empty text is present it is returned unchanged. -/
theorem c9_empty_response (svc : Except Unit (Option (List Char))) :
    (getGeminiExplanation svc = .error .emptyResponse ↔
      svc = .ok none ∨ svc = .ok (some []))
    ∧ (∀ t, t ≠ [] → svc = .ok (some t) → getGeminiExplanation svc = .ok t) := by
  constructor
  · cases svc with
    | error e => simp [getGeminiExplanation]
    | ok o =>
      cases o with
      | none => simp [getGeminiExplanation]
      | some t =>
        by_cases ht : t.isEmpty
        · rw [List.isEmpty_iff] at ht
          subst ht
          simp [getGeminiExplanation]
        · have ht' : t.isEmpty = false := by
            cases hb : t.isEmpty with
            | false => rfl
            | true => exact absurd hb ht
          have htn : t ≠ [] := by
            intro hnil
            rw [hnil] at ht'
            cases ht'
          simp [getGeminiExplanation, ht', htn]
  · intro t ht hsvc
    subst hsvc
    have ht' : t.isEmpty = false := by
      cases t with
      | nil => exact absurd rfl ht
      | cons a b => rfl
    simp [getGeminiExplanation, ht']

/-- C9 witness: the wrapper applied to a service failure, an absent text, an
empty text and a non-empty text. -/
theorem c9_empty_response_witness :
    (getGeminiExplanation (.ok none) = .error .emptyResponse ↔
      (.ok none : Except Unit (Option (List Char))) = .ok none
        ∨ (.ok none : Except Unit (Option (List Char))) = .ok (some []))
    ∧ getGeminiExplanation (.ok (some ("hi".toList))) = .ok ("hi".toList) :=
  ⟨(c9_empty_response (.ok none)).1,
   (c9_empty_response (.ok (some ("hi".toList)))).2 ("hi".toList) (by decide) rfl⟩

/-- C10: classification precedence is fixed: a line containing any of the five
marker substrings is never placed in the examples sequence, even when it also
matches the leading digit-period example pattern; and the `else if` chain
assigns a line to the first matching marker field in the order pronunciation,
synonyms, antonyms, translation, idioms. -/
theorem c10_marker_precedence :
    (∀ raw q p l, parsedContent raw q = some p → markerAny l = true →
        l ∉ p.examples)
    ∧ (∀ st l, containsL l PRON = true → classify st l = { st with pron := l })
    ∧ (∀ st l, containsL l PRON = false → containsL l SYN = true →
        classify st l = { st with syn := l })
    ∧ (∀ st l, containsL l PRON = false → containsL l SYN = false →
        containsL l ANT = true → classify st l = { st with ant := l })
    ∧ (∀ st l, containsL l PRON = false → containsL l SYN = false →
        containsL l ANT = false → containsL l TRANSL = true →
        classify st l = { st with transl := l })
    ∧ (∀ st l, containsL l PRON = false → containsL l SYN = false →
        containsL l ANT = false → containsL l TRANSL = false →
        containsL l IDIOM = true → classify st l = { st with idiom := l }) := by
  refine ⟨?_, ?_, ?_, ?_, ?_, ?_⟩
  · intro raw q p l hp hm hmem
    rw [parsedContent] at hp
    by_cases he : raw.isEmpty
    · rw [if_pos he] at hp
      cases hp
    · rw [if_neg he] at hp
      injection hp with hp
      subst hp
      rw [parseLines_examples, scan_examples] at hmem
      have hx := (List.mem_filter.mp hmem).2
      simp [pEx, hm] at hx
  · intro st l h1
    simp [classify, h1]
  · intro st l h1 h2
    simp [classify, h1, h2]
  · intro st l h1 h2 h3
    simp [classify, h1, h2, h3]
  · intro st l h1 h2 h3 h4
    simp [classify, h1, h2, h3, h4]
  · intro st l h1 h2 h3 h4 h5
    simp [classify, h1, h2, h3, h4, h5]

/-- C10 witness: the line `"1. SYNONYMS: x"` both matches the example pattern
and contains a marker; it is routed to the synonyms field and kept out of the
examples sequence. -/
theorem c10_marker_precedence_witness :
    ("1. SYNONYMS: x".toList)
      ∉ (parseLines (linesOf ("w\n1. SYNONYMS: x".toList)) ("q".toList)).examples :=
  c10_marker_precedence.1 ("w\n1. SYNONYMS: x".toList) ("q".toList)
    (parseLines (linesOf ("w\n1. SYNONYMS: x".toList)) ("q".toList))
    ("1. SYNONYMS: x".toList) (by decide) (by decide)

end Lexicon
